import Mathlib

/-!
Verification of the chunk writer in `src/table_import.rs` of td-client-rust.

The writer is embedded shallowly: the scratch file, the gzip compressor and
the I/O layer are external collaborators, so the writer state keeps the cursor
`elms_in_row : Option (u32 × u32)` together with the sequence of bytes handed
to the compression sink.  Machine integers are modelled as `Nat`/`Int`; the
only place where 32-bit overflow matters is the `added + 1` computation in
`incr_elms_in_row`, which is modelled with an explicit `% 2^32` (release-mode
Rust wrap-around semantics).  Rust strings appear at this boundary only as the
byte sequences the encoder writes, so keys and string values are `List Nat`
(their UTF-8 bytes); `str::len` is the byte length, matching `List.length`.
I/O failures (`io::Error`, `ValueWriteError` raised by the sink) are outside
the embedding: the encoders below are total, which matches the spec clauses
that assume no I/O or encoding failure.
-/

/-- Big-endian 2-byte encoding of a value already reduced mod 2^16. -/
def be2 (v : Nat) : List Nat := [v / 2 ^ 8 % 2 ^ 8, v % 2 ^ 8]

/-- Big-endian 4-byte encoding of a value already reduced mod 2^32. -/
def be4 (v : Nat) : List Nat :=
  [v / 2 ^ 24 % 2 ^ 8, v / 2 ^ 16 % 2 ^ 8, v / 2 ^ 8 % 2 ^ 8, v % 2 ^ 8]

/-- Big-endian 8-byte encoding of a value already reduced mod 2^64. -/
def be8 (v : Nat) : List Nat :=
  [v / 2 ^ 56 % 2 ^ 8, v / 2 ^ 48 % 2 ^ 8, v / 2 ^ 40 % 2 ^ 8, v / 2 ^ 32 % 2 ^ 8,
   v / 2 ^ 24 % 2 ^ 8, v / 2 ^ 16 % 2 ^ 8, v / 2 ^ 8 % 2 ^ 8, v % 2 ^ 8]

/-- Two's-complement byte value of a signed integer at width `w` bits. -/
def twosComp (v : Int) (w : Nat) : Nat := (v % (2 ^ w : Nat)).toNat

/-- Modelled from the spec: msgpack map header (§4.2/§6); the external `rmp`
encoder `write_map_len` called by the writer. fixmap below 16 entries, then
map16 / map32 with big-endian length. -/
def write_map_len (len : Nat) : List Nat :=
  if len < 16 then [0x80 + len]
  else if len < 2 ^ 16 then 0xde :: be2 len
  else 0xdf :: be4 (len % 2 ^ 32)

/-- Modelled from the spec: msgpack array header; the external `rmp` encoder
`write_array_len`. -/
def write_array_len (len : Nat) : List Nat :=
  if len < 16 then [0x90 + len]
  else if len < 2 ^ 16 then 0xdc :: be2 len
  else 0xdd :: be4 (len % 2 ^ 32)

/-- Modelled from the spec: msgpack string, length-prefixed (§4.2); the
external `rmp` encoder `write_str`.  The string is given by its UTF-8 bytes. -/
def write_str (s : List Nat) : List Nat :=
  (if s.length < 32 then [0xa0 + s.length]
   else if s.length < 2 ^ 8 then [0xd9, s.length]
   else if s.length < 2 ^ 16 then 0xda :: be2 s.length
   else 0xdb :: be4 (s.length % 2 ^ 32)) ++ s

/-- Modelled from the spec: msgpack binary blob; the external `rmp` encoder
`write_bin`. -/
def write_bin (d : List Nat) : List Nat :=
  (if d.length < 2 ^ 8 then [0xc4, d.length]
   else if d.length < 2 ^ 16 then 0xc5 :: be2 d.length
   else 0xc6 :: be4 (d.length % 2 ^ 32)) ++ d

/-- Modelled from the spec: msgpack booleans; the external `rmp` encoder
`write_bool`. -/
def write_bool (val : Bool) : List Nat := [if val then 0xc3 else 0xc2]

/-- Modelled from the spec: msgpack nil; the external `rmp` encoder
`write_nil`. -/
def write_nil : List Nat := [0xc0]

/-- Modelled from the spec: positive fixint; the external `rmp` encoder
`write_pfix` (callers pass values below 128). -/
def write_pfix (val : Nat) : List Nat := [val % 2 ^ 7]

/-- Modelled from the spec: negative fixint; the external `rmp` encoder
`write_nfix` (callers pass values in [-32, -1]; the byte is the two's
complement, which carries the 0xe0 tag bits for that range). -/
def write_nfix (val : Int) : List Nat := [twosComp val 8]

/-- Modelled from the spec: fixed-width unsigned encoders of `rmp`. -/
def write_u8 (val : Nat) : List Nat := [0xcc, val % 2 ^ 8]

/-- Modelled from the spec: `rmp` `write_u16`. -/
def write_u16 (val : Nat) : List Nat := 0xcd :: be2 (val % 2 ^ 16)

/-- Modelled from the spec: `rmp` `write_u32`. -/
def write_u32 (val : Nat) : List Nat := 0xce :: be4 (val % 2 ^ 32)

/-- Modelled from the spec: `rmp` `write_u64`. -/
def write_u64 (val : Nat) : List Nat := 0xcf :: be8 (val % 2 ^ 64)

/-- Modelled from the spec: fixed-width signed encoders of `rmp`. -/
def write_i8 (val : Int) : List Nat := [0xd0, twosComp val 8]

/-- Modelled from the spec: `rmp` `write_i16`. -/
def write_i16 (val : Int) : List Nat := 0xd1 :: be2 (twosComp val 16)

/-- Modelled from the spec: `rmp` `write_i32`. -/
def write_i32 (val : Int) : List Nat := 0xd2 :: be4 (twosComp val 32)

/-- Modelled from the spec: `rmp` `write_i64`. -/
def write_i64 (val : Int) : List Nat := 0xd3 :: be8 (twosComp val 64)

/-- Modelled from the spec: compact ("smallest width") signed encoding; the
external `rmp` encoder `write_sint` (§4.2 "generic signed int with compact
encoding"). -/
def write_sint (val : Int) : List Nat :=
  if -32 ≤ val ∧ val < 0 then write_nfix val
  else if 0 ≤ val ∧ val < 2 ^ 7 then write_pfix val.toNat
  else if -(2 ^ 7) ≤ val ∧ val < 2 ^ 7 then write_i8 val
  else if -(2 ^ 15) ≤ val ∧ val < 2 ^ 15 then write_i16 val
  else if -(2 ^ 31) ≤ val ∧ val < 2 ^ 31 then write_i32 val
  else write_i64 val

/-- Modelled from the spec: compact unsigned encoding; the external `rmp`
encoder `write_uint`. -/
def write_uint (val : Nat) : List Nat :=
  if val < 2 ^ 7 then write_pfix val
  else if val < 2 ^ 8 then write_u8 val
  else if val < 2 ^ 16 then write_u16 val
  else if val < 2 ^ 32 then write_u32 val
  else write_u64 val

/-- Modelled from the spec: msgpack extension-type header (length + type tag);
the external `rmp` encoder `write_ext_meta`. -/
def write_ext_meta (len : Nat) (typeid : Int) : List Nat :=
  if len = 1 then [0xd4, twosComp typeid 8]
  else if len = 2 then [0xd5, twosComp typeid 8]
  else if len = 4 then [0xd6, twosComp typeid 8]
  else if len = 8 then [0xd7, twosComp typeid 8]
  else if len = 16 then [0xd8, twosComp typeid 8]
  else if len < 2 ^ 8 then [0xc7, len, twosComp typeid 8]
  else if len < 2 ^ 16 then 0xc8 :: be2 len ++ [twosComp typeid 8]
  else 0xc9 :: be4 (len % 2 ^ 32) ++ [twosComp typeid 8]

/-- Modelled from the spec: msgpack float32; the external `rmp` encoder
`write_f32`.  The float is represented by its IEEE-754 bit pattern, since the
encoder writes exactly those four bytes big-endian. -/
def write_f32 (bits : Nat) : List Nat := 0xca :: be4 (bits % 2 ^ 32)

/-- Modelled from the spec: msgpack float64; the external `rmp` encoder
`write_f64`. -/
def write_f64 (bits : Nat) : List Nat := 0xcb :: be8 (bits % 2 ^ 64)

/-- `UnmatchElementNumsError(Option<(u32, u32)>)` from `table_import.rs`:
`some (capacity, added)` is the mismatching pair, `none` the "Not initialized
yet" form raised before any row is begun. -/
structure UnmatchElementNumsError where
  val : Option (Nat × Nat)
deriving DecidableEq

/-- `TableImportChunkError` from `table_import.rs`.  `IOError` and
`MsgpackValueWriteError` carry OS-level payloads that are outside the
embedding. -/
inductive TableImportChunkError where
  | IOError : TableImportChunkError
  | UnmatchElementNums : UnmatchElementNumsError → TableImportChunkError
  | UnexpectedError : String → TableImportChunkError
  | MsgpackValueWriteError : TableImportChunkError
deriving DecidableEq

/-- `TableImportWritableChunk`: the cursor `elms_in_row` and the bytes written
so far to the compression sink (`self.write`).  `file_path` and `tmp_dir` are
filesystem handles outside the embedding. -/
structure TableImportWritableChunk where
  elms_in_row : Option (Nat × Nat)
  sink : List Nat
deriving DecidableEq

/-- `TableImportReadableChunk`: the finalized chunk, modelled by the payload
bytes that were handed to the compression sink (the file holds their
gzip-compressed form; compression and the file path are outside the
embedding). -/
structure TableImportReadableChunk where
  content : List Nat
deriving DecidableEq

/-- `TableImportWritableChunk::new()`: fresh cursor `None`, nothing written.
The scratch-directory and file creation (and their possible `IOError`s) are
outside the embedding; the claims assume they succeed. -/
def new : TableImportWritableChunk :=
  { elms_in_row := none, sink := [] }

/-- `check_elm_number` from `table_import.rs`. -/
def check_elm_number (c : TableImportWritableChunk) :
    Except TableImportChunkError Unit :=
  match c.elms_in_row with
  | some (capacity, added) =>
      if capacity ≠ added then
        Except.error (TableImportChunkError.UnmatchElementNums
          ⟨some (capacity, added)⟩)
      else Except.ok ()
  | none => Except.ok ()

/-- `next_row` from `table_import.rs`: check the previous row, write a map
header, reset the cursor.  The pair returned is (result, writer state after
the call), mirroring `&mut self`. -/
def next_row (c : TableImportWritableChunk) (len : Nat) :
    Except TableImportChunkError Unit × TableImportWritableChunk :=
  match check_elm_number c with
  | Except.error e => (Except.error e, c)
  | Except.ok _ =>
      (Except.ok (),
       { elms_in_row := some (len, 0), sink := c.sink ++ write_map_len len })

/-- `incr_elms_in_row` from `table_import.rs`.  `added + 1` is a u32 addition,
hence the explicit `% 2^32`. -/
def incr_elms_in_row (c : TableImportWritableChunk) :
    Except UnmatchElementNumsError Unit × TableImportWritableChunk :=
  match c.elms_in_row with
  | some (capacity, added) =>
      let new_added := (added + 1) % 2 ^ 32
      if capacity < new_added then
        (Except.error ⟨some (capacity, new_added)⟩, c)
      else
        (Except.ok (), { c with elms_in_row := some (capacity, new_added) })
  | none => (Except.error ⟨none⟩, c)

/-- `close` from `table_import.rs`: final arity check, then finish the
compressor (always succeeds in the I/O-free embedding) and hand the sink
contents over as the readable chunk.  `close` consumes the writer. -/
def close (c : TableImportWritableChunk) :
    Except TableImportChunkError TableImportReadableChunk :=
  match check_elm_number c with
  | Except.error e => Except.error e
  | Except.ok _ => Except.ok { content := c.sink }

/-- Lifts the `UnmatchElementNumsError` of `incr_elms_in_row` into
`TableImportChunkError`, as the `From` conversion inside `try!` does. -/
def after_incr
    (p : Except UnmatchElementNumsError Unit × TableImportWritableChunk) :
    Except TableImportChunkError Unit × TableImportWritableChunk :=
  match p with
  | (Except.error e, c) =>
      (Except.error (TableImportChunkError.UnmatchElementNums e), c)
  | (Except.ok _, c) => (Except.ok (), c)

/-- `write_key_and_array_header` from `table_import.rs`. -/
def write_key_and_array_header (c : TableImportWritableChunk)
    (key : List Nat) (len : Nat) :
    Except TableImportChunkError Unit × TableImportWritableChunk :=
  let c := { c with sink := c.sink ++ write_str key }
  let c := { c with sink := c.sink ++ write_array_len len }
  after_incr (incr_elms_in_row c)

/-- `write_key_and_bin` from `table_import.rs`. -/
def write_key_and_bin (c : TableImportWritableChunk)
    (key : List Nat) (data : List Nat) :
    Except TableImportChunkError Unit × TableImportWritableChunk :=
  let c := { c with sink := c.sink ++ write_str key }
  let c := { c with sink := c.sink ++ write_bin data }
  after_incr (incr_elms_in_row c)

/-- `write_key_and_bool` from `table_import.rs`. -/
def write_key_and_bool (c : TableImportWritableChunk)
    (key : List Nat) (val : Bool) :
    Except TableImportChunkError Unit × TableImportWritableChunk :=
  let c := { c with sink := c.sink ++ write_str key }
  let c := { c with sink := c.sink ++ write_bool val }
  after_incr (incr_elms_in_row c)

/-- `write_key_and_ext_meta` from `table_import.rs`. -/
def write_key_and_ext_meta (c : TableImportWritableChunk)
    (key : List Nat) (len : Nat) (typeid : Int) :
    Except TableImportChunkError Unit × TableImportWritableChunk :=
  let c := { c with sink := c.sink ++ write_str key }
  let c := { c with sink := c.sink ++ write_ext_meta len typeid }
  after_incr (incr_elms_in_row c)

/-- `write_key_and_f32` from `table_import.rs` (float given by its bits). -/
def write_key_and_f32 (c : TableImportWritableChunk)
    (key : List Nat) (bits : Nat) :
    Except TableImportChunkError Unit × TableImportWritableChunk :=
  let c := { c with sink := c.sink ++ write_str key }
  let c := { c with sink := c.sink ++ write_f32 bits }
  after_incr (incr_elms_in_row c)

/-- `write_key_and_f64` from `table_import.rs` (float given by its bits). -/
def write_key_and_f64 (c : TableImportWritableChunk)
    (key : List Nat) (bits : Nat) :
    Except TableImportChunkError Unit × TableImportWritableChunk :=
  let c := { c with sink := c.sink ++ write_str key }
  let c := { c with sink := c.sink ++ write_f64 bits }
  after_incr (incr_elms_in_row c)

/-- `write_key_and_i16` from `table_import.rs`. -/
def write_key_and_i16 (c : TableImportWritableChunk)
    (key : List Nat) (val : Int) :
    Except TableImportChunkError Unit × TableImportWritableChunk :=
  let c := { c with sink := c.sink ++ write_str key }
  let c := { c with sink := c.sink ++ write_i16 val }
  after_incr (incr_elms_in_row c)

/-- `write_key_and_i32` from `table_import.rs`. -/
def write_key_and_i32 (c : TableImportWritableChunk)
    (key : List Nat) (val : Int) :
    Except TableImportChunkError Unit × TableImportWritableChunk :=
  let c := { c with sink := c.sink ++ write_str key }
  let c := { c with sink := c.sink ++ write_i32 val }
  after_incr (incr_elms_in_row c)

/-- `write_key_and_i64` from `table_import.rs`. -/
def write_key_and_i64 (c : TableImportWritableChunk)
    (key : List Nat) (val : Int) :
    Except TableImportChunkError Unit × TableImportWritableChunk :=
  let c := { c with sink := c.sink ++ write_str key }
  let c := { c with sink := c.sink ++ write_i64 val }
  after_incr (incr_elms_in_row c)

/-- `write_key_and_i8` from `table_import.rs`. -/
def write_key_and_i8 (c : TableImportWritableChunk)
    (key : List Nat) (val : Int) :
    Except TableImportChunkError Unit × TableImportWritableChunk :=
  let c := { c with sink := c.sink ++ write_str key }
  let c := { c with sink := c.sink ++ write_i8 val }
  after_incr (incr_elms_in_row c)

/-- `write_key_and_map_len` from `table_import.rs`. -/
def write_key_and_map_len (c : TableImportWritableChunk)
    (key : List Nat) (len : Nat) :
    Except TableImportChunkError Unit × TableImportWritableChunk :=
  let c := { c with sink := c.sink ++ write_str key }
  let c := { c with sink := c.sink ++ write_map_len len }
  after_incr (incr_elms_in_row c)

/-- `write_key_and_nfix` from `table_import.rs`. -/
def write_key_and_nfix (c : TableImportWritableChunk)
    (key : List Nat) (val : Int) :
    Except TableImportChunkError Unit × TableImportWritableChunk :=
  let c := { c with sink := c.sink ++ write_str key }
  let c := { c with sink := c.sink ++ write_nfix val }
  after_incr (incr_elms_in_row c)

/-- `write_key_and_nil` from `table_import.rs`. -/
def write_key_and_nil (c : TableImportWritableChunk) (key : List Nat) :
    Except TableImportChunkError Unit × TableImportWritableChunk :=
  let c := { c with sink := c.sink ++ write_str key }
  let c := { c with sink := c.sink ++ write_nil }
  after_incr (incr_elms_in_row c)

/-- `write_key_and_pfix` from `table_import.rs`. -/
def write_key_and_pfix (c : TableImportWritableChunk)
    (key : List Nat) (val : Nat) :
    Except TableImportChunkError Unit × TableImportWritableChunk :=
  let c := { c with sink := c.sink ++ write_str key }
  let c := { c with sink := c.sink ++ write_pfix val }
  after_incr (incr_elms_in_row c)

/-- `write_key_and_sint` from `table_import.rs`. -/
def write_key_and_sint (c : TableImportWritableChunk)
    (key : List Nat) (val : Int) :
    Except TableImportChunkError Unit × TableImportWritableChunk :=
  let c := { c with sink := c.sink ++ write_str key }
  let c := { c with sink := c.sink ++ write_sint val }
  after_incr (incr_elms_in_row c)

/-- `write_key_and_sint_eff` from `table_import.rs`: its body performs the
same `write_str`, `write_sint`, `incr_elms_in_row` sequence as
`write_key_and_sint`. -/
def write_key_and_sint_eff (c : TableImportWritableChunk)
    (key : List Nat) (val : Int) :
    Except TableImportChunkError Unit × TableImportWritableChunk :=
  let c := { c with sink := c.sink ++ write_str key }
  let c := { c with sink := c.sink ++ write_sint val }
  after_incr (incr_elms_in_row c)

/-- `write_key_and_str` from `table_import.rs`. -/
def write_key_and_str (c : TableImportWritableChunk)
    (key : List Nat) (data : List Nat) :
    Except TableImportChunkError Unit × TableImportWritableChunk :=
  let c := { c with sink := c.sink ++ write_str key }
  let c := { c with sink := c.sink ++ write_str data }
  after_incr (incr_elms_in_row c)

/-- `write_key_and_u16` from `table_import.rs`. -/
def write_key_and_u16 (c : TableImportWritableChunk)
    (key : List Nat) (val : Nat) :
    Except TableImportChunkError Unit × TableImportWritableChunk :=
  let c := { c with sink := c.sink ++ write_str key }
  let c := { c with sink := c.sink ++ write_u16 val }
  after_incr (incr_elms_in_row c)

/-- `write_key_and_u32` from `table_import.rs`. -/
def write_key_and_u32 (c : TableImportWritableChunk)
    (key : List Nat) (val : Nat) :
    Except TableImportChunkError Unit × TableImportWritableChunk :=
  let c := { c with sink := c.sink ++ write_str key }
  let c := { c with sink := c.sink ++ write_u32 val }
  after_incr (incr_elms_in_row c)

/-- `write_key_and_u64` from `table_import.rs`. -/
def write_key_and_u64 (c : TableImportWritableChunk)
    (key : List Nat) (val : Nat) :
    Except TableImportChunkError Unit × TableImportWritableChunk :=
  let c := { c with sink := c.sink ++ write_str key }
  let c := { c with sink := c.sink ++ write_u64 val }
  after_incr (incr_elms_in_row c)

/-- `write_key_and_u8` from `table_import.rs`. -/
def write_key_and_u8 (c : TableImportWritableChunk)
    (key : List Nat) (val : Nat) :
    Except TableImportChunkError Unit × TableImportWritableChunk :=
  let c := { c with sink := c.sink ++ write_str key }
  let c := { c with sink := c.sink ++ write_u8 val }
  after_incr (incr_elms_in_row c)

/-- `write_key_and_uint` from `table_import.rs`. -/
def write_key_and_uint (c : TableImportWritableChunk)
    (key : List Nat) (val : Nat) :
    Except TableImportChunkError Unit × TableImportWritableChunk :=
  let c := { c with sink := c.sink ++ write_str key }
  let c := { c with sink := c.sink ++ write_uint val }
  after_incr (incr_elms_in_row c)

/-- One `write_key_and_<T>` call with its arguments: the claims quantify over
"any write_key_and_<T> operation", and this type enumerates exactly the
methods of `TableImportWritableChunk`. -/
inductive FieldWrite where
  | arrayHeaderF : List Nat → Nat → FieldWrite
  | binF : List Nat → List Nat → FieldWrite
  | boolF : List Nat → Bool → FieldWrite
  | extMetaF : List Nat → Nat → Int → FieldWrite
  | f32F : List Nat → Nat → FieldWrite
  | f64F : List Nat → Nat → FieldWrite
  | i16F : List Nat → Int → FieldWrite
  | i32F : List Nat → Int → FieldWrite
  | i64F : List Nat → Int → FieldWrite
  | i8F : List Nat → Int → FieldWrite
  | mapLenF : List Nat → Nat → FieldWrite
  | nfixF : List Nat → Int → FieldWrite
  | nilF : List Nat → FieldWrite
  | pfixF : List Nat → Nat → FieldWrite
  | sintF : List Nat → Int → FieldWrite
  | sintEffF : List Nat → Int → FieldWrite
  | strF : List Nat → List Nat → FieldWrite
  | u16F : List Nat → Nat → FieldWrite
  | u32F : List Nat → Nat → FieldWrite
  | u64F : List Nat → Nat → FieldWrite
  | u8F : List Nat → Nat → FieldWrite
  | uintF : List Nat → Nat → FieldWrite
deriving DecidableEq

/-- Dispatch of a `FieldWrite` to the corresponding writer method. -/
def write_key_and (c : TableImportWritableChunk) :
    FieldWrite → Except TableImportChunkError Unit × TableImportWritableChunk
  | FieldWrite.arrayHeaderF key len => write_key_and_array_header c key len
  | FieldWrite.binF key data => write_key_and_bin c key data
  | FieldWrite.boolF key val => write_key_and_bool c key val
  | FieldWrite.extMetaF key len typeid => write_key_and_ext_meta c key len typeid
  | FieldWrite.f32F key bits => write_key_and_f32 c key bits
  | FieldWrite.f64F key bits => write_key_and_f64 c key bits
  | FieldWrite.i16F key val => write_key_and_i16 c key val
  | FieldWrite.i32F key val => write_key_and_i32 c key val
  | FieldWrite.i64F key val => write_key_and_i64 c key val
  | FieldWrite.i8F key val => write_key_and_i8 c key val
  | FieldWrite.mapLenF key len => write_key_and_map_len c key len
  | FieldWrite.nfixF key val => write_key_and_nfix c key val
  | FieldWrite.nilF key => write_key_and_nil c key
  | FieldWrite.pfixF key val => write_key_and_pfix c key val
  | FieldWrite.sintF key val => write_key_and_sint c key val
  | FieldWrite.sintEffF key val => write_key_and_sint_eff c key val
  | FieldWrite.strF key data => write_key_and_str c key data
  | FieldWrite.u16F key val => write_key_and_u16 c key val
  | FieldWrite.u32F key val => write_key_and_u32 c key val
  | FieldWrite.u64F key val => write_key_and_u64 c key val
  | FieldWrite.u8F key val => write_key_and_u8 c key val
  | FieldWrite.uintF key val => write_key_and_uint c key val

/-- The bytes a `write_key_and_<T>` call sends to the sink: the msgpack string
encoding of the key followed by the value encoding. -/
def fieldBytes : FieldWrite → List Nat
  | FieldWrite.arrayHeaderF key len => write_str key ++ write_array_len len
  | FieldWrite.binF key data => write_str key ++ write_bin data
  | FieldWrite.boolF key val => write_str key ++ write_bool val
  | FieldWrite.extMetaF key len typeid => write_str key ++ write_ext_meta len typeid
  | FieldWrite.f32F key bits => write_str key ++ write_f32 bits
  | FieldWrite.f64F key bits => write_str key ++ write_f64 bits
  | FieldWrite.i16F key val => write_str key ++ write_i16 val
  | FieldWrite.i32F key val => write_str key ++ write_i32 val
  | FieldWrite.i64F key val => write_str key ++ write_i64 val
  | FieldWrite.i8F key val => write_str key ++ write_i8 val
  | FieldWrite.mapLenF key len => write_str key ++ write_map_len len
  | FieldWrite.nfixF key val => write_str key ++ write_nfix val
  | FieldWrite.nilF key => write_str key ++ write_nil
  | FieldWrite.pfixF key val => write_str key ++ write_pfix val
  | FieldWrite.sintF key val => write_str key ++ write_sint val
  | FieldWrite.sintEffF key val => write_str key ++ write_sint val
  | FieldWrite.strF key data => write_str key ++ write_str data
  | FieldWrite.u16F key val => write_str key ++ write_u16 val
  | FieldWrite.u32F key val => write_str key ++ write_u32 val
  | FieldWrite.u64F key val => write_str key ++ write_u64 val
  | FieldWrite.u8F key val => write_str key ++ write_u8 val
  | FieldWrite.uintF key val => write_str key ++ write_uint val

/-- One call against the writer in a trace: `next_row` or a field write. -/
inductive Op where
  | nextRow : Nat → Op
  | field : FieldWrite → Op
deriving DecidableEq

/-- One trace step. -/
def step (c : TableImportWritableChunk) :
    Op → Except TableImportChunkError Unit × TableImportWritableChunk
  | Op.nextRow len => next_row c len
  | Op.field f => write_key_and c f

/-- Run a trace of calls, stopping at the first error (the caller would stop
there; the state after the failing call is returned). -/
def run (c : TableImportWritableChunk) :
    List Op → Except TableImportChunkError Unit × TableImportWritableChunk
  | [] => (Except.ok (), c)
  | op :: ops =>
      match step c op with
      | (Except.ok _, c1) => run c1 ops
      | (Except.error e, c1) => (Except.error e, c1)

/-- The calls that write one row: `next_row` with the row's field count, then
the row's field writes. -/
def rowOps (r : List FieldWrite) : List Op :=
  Op.nextRow r.length :: r.map Op.field

/-- The calls that write a whole chunk, row by row. -/
def rowsOps : List (List FieldWrite) → List Op
  | [] => []
  | r :: rows => rowOps r ++ rowsOps rows

/-- The bytes of one row's field writes, in call order. -/
def fieldsBytes : List FieldWrite → List Nat
  | [] => []
  | f :: fs => fieldBytes f ++ fieldsBytes fs

/-- The payload of a chunk: per row, a map header with the field count, then
that row's key/value pairs. -/
def rowsBytes : List (List FieldWrite) → List Nat
  | [] => []
  | r :: rows => write_map_len r.length ++ fieldsBytes r ++ rowsBytes rows

/-- The cursor invariant of the spec (§3): whenever the cursor is present,
the written count does not exceed the declared count. -/
def cursorInv (c : TableImportWritableChunk) : Prop :=
  ∀ n w : Nat, c.elms_in_row = some (n, w) → w ≤ n

/-- Every `write_key_and_<T>` method appends its key and value bytes to the
sink and then runs `incr_elms_in_row`, exactly as the source bodies do. -/
theorem write_key_and_eq (c : TableImportWritableChunk) (f : FieldWrite) :
    write_key_and c f =
      after_incr (incr_elms_in_row { c with sink := c.sink ++ fieldBytes f }) := by
  cases f <;>
    simp [write_key_and, fieldBytes, List.append_assoc,
      write_key_and_array_header, write_key_and_bin, write_key_and_bool,
      write_key_and_ext_meta, write_key_and_f32, write_key_and_f64,
      write_key_and_i16, write_key_and_i32, write_key_and_i64,
      write_key_and_i8, write_key_and_map_len, write_key_and_nfix,
      write_key_and_nil, write_key_and_pfix, write_key_and_sint,
      write_key_and_sint_eff, write_key_and_str, write_key_and_u16,
      write_key_and_u32, write_key_and_u64, write_key_and_u8,
      write_key_and_uint]

theorem check_elm_number_none (c : TableImportWritableChunk)
    (h : c.elms_in_row = none) : check_elm_number c = Except.ok () := by
  simp [check_elm_number, h]

theorem check_elm_number_exact (c : TableImportWritableChunk) (n : Nat)
    (h : c.elms_in_row = some (n, n)) : check_elm_number c = Except.ok () := by
  simp [check_elm_number, h]

theorem check_elm_number_ne (c : TableImportWritableChunk) (n w : Nat)
    (h : c.elms_in_row = some (n, w)) (hw : w ≠ n) :
    check_elm_number c =
      Except.error (TableImportChunkError.UnmatchElementNums ⟨some (n, w)⟩) := by
  simp [check_elm_number, h, Ne.symm hw]

theorem next_row_of_check_ok (c : TableImportWritableChunk) (len : Nat)
    (h : check_elm_number c = Except.ok ()) :
    next_row c len =
      (Except.ok (),
       ⟨some (len, 0), c.sink ++ write_map_len len⟩) := by
  simp [next_row, h]

theorem next_row_of_check_err (c : TableImportWritableChunk) (len : Nat)
    (e : TableImportChunkError) (h : check_elm_number c = Except.error e) :
    next_row c len = (Except.error e, c) := by
  simp [next_row, h]

theorem incr_of_lt (c : TableImportWritableChunk) (len j : Nat)
    (h : c.elms_in_row = some (len, j)) (hj : j < len) (hlen : len < 2 ^ 32) :
    incr_elms_in_row c =
      (Except.ok (), { c with elms_in_row := some (len, j + 1) }) := by
  have hj1 : (j + 1) % 2 ^ 32 = j + 1 := Nat.mod_eq_of_lt (by omega)
  simp only [incr_elms_in_row, h]
  rw [hj1, if_neg (by omega)]

theorem incr_of_full (c : TableImportWritableChunk) (len : Nat)
    (h : c.elms_in_row = some (len, len)) (hlen : len + 1 < 2 ^ 32) :
    incr_elms_in_row c = (Except.error ⟨some (len, len + 1)⟩, c) := by
  have hj1 : (len + 1) % 2 ^ 32 = len + 1 := Nat.mod_eq_of_lt hlen
  simp only [incr_elms_in_row, h]
  rw [hj1, if_pos (by omega)]

theorem incr_of_none (c : TableImportWritableChunk)
    (h : c.elms_in_row = none) :
    incr_elms_in_row c = (Except.error ⟨none⟩, c) := by
  simp [incr_elms_in_row, h]

theorem incr_of_wrap (c : TableImportWritableChunk)
    (h : c.elms_in_row = some (2 ^ 32 - 1, 2 ^ 32 - 1)) :
    incr_elms_in_row c =
      (Except.ok (), { c with elms_in_row := some (2 ^ 32 - 1, 0) }) := by
  have hj1 : (2 ^ 32 - 1 + 1) % 2 ^ 32 = 0 := by norm_num
  have hcond : ¬ 2 ^ 32 - 1 < (2 ^ 32 - 1 + 1) % 2 ^ 32 := by rw [hj1]; omega
  simp [incr_elms_in_row, h, hcond, hj1]

theorem write_key_and_of_lt (c : TableImportWritableChunk) (f : FieldWrite)
    (len j : Nat) (h : c.elms_in_row = some (len, j)) (hj : j < len)
    (hlen : len < 2 ^ 32) :
    write_key_and c f =
      (Except.ok (), ⟨some (len, j + 1), c.sink ++ fieldBytes f⟩) := by
  rw [write_key_and_eq,
    incr_of_lt { c with sink := c.sink ++ fieldBytes f } len j h hj hlen]
  rfl

theorem write_key_and_of_full (c : TableImportWritableChunk) (f : FieldWrite)
    (len : Nat) (h : c.elms_in_row = some (len, len)) (hlen : len + 1 < 2 ^ 32) :
    write_key_and c f =
      (Except.error
        (TableImportChunkError.UnmatchElementNums ⟨some (len, len + 1)⟩),
       ⟨some (len, len), c.sink ++ fieldBytes f⟩) := by
  rw [write_key_and_eq,
    incr_of_full { c with sink := c.sink ++ fieldBytes f } len h hlen]
  rw [show ({ c with sink := c.sink ++ fieldBytes f } :
        TableImportWritableChunk) = ⟨some (len, len), c.sink ++ fieldBytes f⟩ by
      cases c; simp_all]
  rfl

theorem write_key_and_of_none (c : TableImportWritableChunk) (f : FieldWrite)
    (h : c.elms_in_row = none) :
    write_key_and c f =
      (Except.error (TableImportChunkError.UnmatchElementNums ⟨none⟩),
       ⟨none, c.sink ++ fieldBytes f⟩) := by
  rw [write_key_and_eq,
    incr_of_none { c with sink := c.sink ++ fieldBytes f } h]
  rw [show ({ c with sink := c.sink ++ fieldBytes f } :
        TableImportWritableChunk) = ⟨none, c.sink ++ fieldBytes f⟩ by
      cases c; simp_all]
  rfl

theorem write_key_and_of_wrap (c : TableImportWritableChunk) (f : FieldWrite)
    (h : c.elms_in_row = some (2 ^ 32 - 1, 2 ^ 32 - 1)) :
    write_key_and c f =
      (Except.ok (), ⟨some (2 ^ 32 - 1, 0), c.sink ++ fieldBytes f⟩) := by
  rw [write_key_and_eq,
    incr_of_wrap { c with sink := c.sink ++ fieldBytes f } h]
  rfl

theorem run_cons_ok (c c1 : TableImportWritableChunk) (op : Op)
    (ops : List Op) (h : step c op = (Except.ok (), c1)) :
    run c (op :: ops) = run c1 ops := by
  simp [run, h]

theorem run_append (ops1 : List Op) :
    ∀ (c : TableImportWritableChunk) (ops2 : List Op),
      (run c ops1).1 = Except.ok () →
      run c (ops1 ++ ops2) = run (run c ops1).2 ops2 := by
  induction ops1 with
  | nil => intro c ops2 _; rfl
  | cons op ops ih =>
      intro c ops2 h
      match hst : step c op with
      | (Except.ok u, c1) =>
          cases u
          rw [List.cons_append, run_cons_ok c c1 op (ops ++ ops2) hst,
            run_cons_ok c c1 op ops hst] at *
          exact ih c1 ops2 h
      | (Except.error e, c1) =>
          exfalso
          simp [run, hst] at h
  
/-- Running `k` in-row field writes from a cursor `(len, j)` with enough room
succeeds, advances the cursor by `k`, and appends exactly the fields' bytes. -/
theorem run_fields (fs : List FieldWrite) :
    ∀ (c : TableImportWritableChunk) (len j : Nat),
      c.elms_in_row = some (len, j) → j + fs.length ≤ len → len < 2 ^ 32 →
      run c (fs.map Op.field) =
        (Except.ok (),
         ⟨some (len, j + fs.length), c.sink ++ fieldsBytes fs⟩) := by
  induction fs with
  | nil =>
      intro c len j h _ _
      obtain ⟨cur, sink⟩ := c
      simp only [Option.some.injEq] at h ⊢
      simp [run, fieldsBytes, h]
  | cons f fs ih =>
      intro c len j h hle hlen
      have hj : j < len := by
        simp only [List.length_cons] at hle; omega
      have hw := write_key_and_of_lt c f len j h hj hlen
      have hst : step c (Op.field f) = (Except.ok (), ⟨some (len, j + 1), c.sink ++ fieldBytes f⟩) := hw
      rw [List.map_cons, run_cons_ok _ _ _ _ hst]
      rw [ih ⟨some (len, j + 1), c.sink ++ fieldBytes f⟩ len (j + 1) rfl
        (by simp only [List.length_cons] at hle; omega) hlen]
      rw [show j + 1 + fs.length = j + (f :: fs).length by
        simp only [List.length_cons]; omega]
      simp [fieldsBytes, List.append_assoc]

/-- Running a well-formed sequence of rows (each `next_row` matched by exactly
that many field writes) from a state that passes the arity check succeeds,
ends in a state that passes the arity check, and appends exactly the per-row
payload bytes. -/
theorem run_rows (rows : List (List FieldWrite)) :
    ∀ (c : TableImportWritableChunk),
      check_elm_number c = Except.ok () →
      (∀ r ∈ rows, r.length < 2 ^ 32) →
      (run c (rowsOps rows)).1 = Except.ok () ∧
      check_elm_number (run c (rowsOps rows)).2 = Except.ok () ∧
      (run c (rowsOps rows)).2.sink = c.sink ++ rowsBytes rows := by
  induction rows with
  | nil =>
      intro c hc _
      simp [rowsOps, run, rowsBytes, hc]
  | cons r rows ih =>
      intro c hc hlt
      have hr : r.length < 2 ^ 32 := hlt r (List.mem_cons_self r rows)
      have hst : step c (Op.nextRow r.length) =
          (Except.ok (), ⟨some (r.length, 0), c.sink ++ write_map_len r.length⟩) :=
        next_row_of_check_ok c r.length hc
      have hflds := run_fields r
        ⟨some (r.length, 0), c.sink ++ write_map_len r.length⟩
        r.length 0 rfl (by omega) hr
      have hops : rowsOps (r :: rows) =
          Op.nextRow r.length :: (r.map Op.field ++ rowsOps rows) := by
        simp [rowsOps, rowOps]
      rw [hops, run_cons_ok _ _ _ _ hst,
        run_append (r.map Op.field) _ (rowsOps rows) (by rw [hflds]),
        hflds]
      have hc2 : check_elm_number
          (⟨some (r.length, 0 + r.length),
            (c.sink ++ write_map_len r.length) ++ fieldsBytes r⟩ :
            TableImportWritableChunk) = Except.ok () :=
        check_elm_number_exact _ r.length (by rw [Nat.zero_add])
      obtain ⟨h1, h2, h3⟩ :=
        ih _ hc2 (fun q hq => hlt q (List.mem_cons_of_mem _ hq))
      refine ⟨h1, h2, ?_⟩
      rw [h3]
      simp [rowsBytes, List.append_assoc]

theorem after_incr_snd
    (p : Except UnmatchElementNumsError Unit × TableImportWritableChunk) :
    (after_incr p).2 = p.2 := by
  obtain ⟨r, c⟩ := p
  cases r with
  | ok u => cases u; rfl
  | error e => rfl

theorem after_incr_fst_ok
    (p : Except UnmatchElementNumsError Unit × TableImportWritableChunk)
    (h : p.1 = Except.ok ()) : (after_incr p).1 = Except.ok () := by
  obtain ⟨r, c⟩ := p
  cases r with
  | ok u => cases u; rfl
  | error e => exact absurd h (by simp)

theorem incr_of_no_room_wrap (c : TableImportWritableChunk) (n : Nat)
    (h : c.elms_in_row = some (n, n)) (hn : ¬ n + 1 < 2 ^ 32) :
    (incr_elms_in_row c).1 = Except.ok () := by
  have h2 : (n + 1) % 2 ^ 32 < 2 ^ 32 := Nat.mod_lt _ (by norm_num)
  simp only [incr_elms_in_row, h]
  rw [if_neg (by omega)]

theorem incr_preserves_inv (c : TableImportWritableChunk)
    (hc : cursorInv c) : cursorInv (incr_elms_in_row c).2 := by
  rcases h : c.elms_in_row with _ | ⟨ca, ad⟩
  · rw [incr_of_none c h]
    exact hc
  · simp only [incr_elms_in_row, h]
    by_cases hlt : ca < (ad + 1) % 2 ^ 32
    · rw [if_pos hlt]
      exact hc
    · rw [if_neg hlt]
      intro n w hw
      simp only [Option.some.injEq, Prod.mk.injEq] at hw
      omega

/-- C1: for every sequence of rows, each written as `next_row(n)` followed by
exactly `n` successful field writes (the empty sequence included), and with no
I/O or encoding failure (none exist in the embedding), `close()` succeeds and
returns a `TableImportReadableChunk`. -/
theorem close_succeeds_after_complete_rows (rows : List (List FieldWrite))
    (hlt : ∀ r ∈ rows, r.length < 2 ^ 32) :
    (run new (rowsOps rows)).1 = Except.ok () ∧
    ∃ chunk : TableImportReadableChunk,
      close (run new (rowsOps rows)).2 = Except.ok chunk := by
  obtain ⟨h1, h2, _⟩ := run_rows rows new (check_elm_number_none new rfl) hlt
  exact ⟨h1, ⟨{ content := (run new (rowsOps rows)).2.sink },
    by simp [close, h2]⟩⟩

/-- Witness for C1 at a concrete two-row chunk (one one-field row, one empty
row). -/
theorem close_succeeds_after_complete_rows_witness :
    (run new (rowsOps [[FieldWrite.nilF [0x61]], []])).1 = Except.ok () ∧
    ∃ chunk : TableImportReadableChunk,
      close (run new (rowsOps [[FieldWrite.nilF [0x61]], []])).2 =
        Except.ok chunk :=
  close_succeeds_after_complete_rows [[FieldWrite.nilF [0x61]], []] (by decide)

/-- C2: the bytes a successfully completed chunk hands to the compression
sink are, in row order, a msgpack map header carrying the row's declared
field count followed by exactly that many key/value encodings in call order
(`rowsBytes`). -/
theorem chunk_payload_is_msgpack_rows (rows : List (List FieldWrite))
    (hlt : ∀ r ∈ rows, r.length < 2 ^ 32) :
    close (run new (rowsOps rows)).2 =
      Except.ok { content := rowsBytes rows } := by
  obtain ⟨_, h2, h3⟩ := run_rows rows new (check_elm_number_none new rfl) hlt
  simp only [close, h2]
  rw [h3]
  rfl

/-- Witness for C2: the spec scenario `next_row(2)`, "a" = int32 5,
"b" = string "x", `close()` yields exactly the msgpack encoding of the
single-row map. -/
theorem chunk_payload_is_msgpack_rows_witness :
    close (run new
      (rowsOps [[FieldWrite.i32F [0x61] 5, FieldWrite.strF [0x62] [0x78]]])).2 =
      Except.ok { content :=
        [0x82, 0xa1, 0x61, 0xd2, 0x00, 0x00, 0x00, 0x05,
         0xa1, 0x62, 0xa1, 0x78] } :=
  (chunk_payload_is_msgpack_rows
    [[FieldWrite.i32F [0x61] 5, FieldWrite.strF [0x62] [0x78]]]
    (by decide)).trans (by rfl)

/-- C3: with a row opened for `n` fields and only `w < n` written, the next
`next_row` (for any length) and `close` both fail with the arity error
carrying exactly the pair `(n, w)`. -/
theorem underfilled_row_next_or_close_fails (c : TableImportWritableChunk)
    (n w : Nat) (h : c.elms_in_row = some (n, w)) (hw : w < n) :
    (∀ m : Nat, next_row c m =
      (Except.error (TableImportChunkError.UnmatchElementNums ⟨some (n, w)⟩),
       c)) ∧
    close c =
      Except.error (TableImportChunkError.UnmatchElementNums ⟨some (n, w)⟩) := by
  have hc := check_elm_number_ne c n w h (by omega)
  exact ⟨fun m => next_row_of_check_err c m _ hc, by simp [close, hc]⟩

/-- Witness for C3: the spec scenario `next_row(1)` then `close()` fails with
the arity error carrying (1, 0). -/
theorem underfilled_row_next_or_close_fails_witness :
    close (next_row new 1).2 =
      Except.error (TableImportChunkError.UnmatchElementNums ⟨some (1, 0)⟩) :=
  (underfilled_row_next_or_close_fails (next_row new 1).2 1 0
    (by decide) (by decide)).2

/-- C4 (amended): for a row opened with `next_row(n)` where `n + 1 < 2^32`,
after `n` successful field writes the (n+1)-th `write_key_and_<T>` call fails
at that call with the arity error carrying `(n, n+1)`.  (At `n = 2^32 - 1`
the u32 written counter wraps instead; see the counterexample.) -/
theorem overfull_write_fails_at_call (c : TableImportWritableChunk)
    (fs : List FieldWrite) (n : Nat) (hn : fs.length = n)
    (hlt : n + 1 < 2 ^ 32) (hc : check_elm_number c = Except.ok ()) :
    (run c (Op.nextRow n :: fs.map Op.field)).1 = Except.ok () ∧
    ∀ f : FieldWrite,
      (write_key_and (run c (Op.nextRow n :: fs.map Op.field)).2 f).1 =
        Except.error
          (TableImportChunkError.UnmatchElementNums ⟨some (n, n + 1)⟩) := by
  subst hn
  have hst : step c (Op.nextRow fs.length) =
      (Except.ok (),
       ⟨some (fs.length, 0), c.sink ++ write_map_len fs.length⟩) :=
    next_row_of_check_ok c fs.length hc
  have hflds := run_fields fs
    ⟨some (fs.length, 0), c.sink ++ write_map_len fs.length⟩
    fs.length 0 rfl (by omega) (by omega)
  rw [run_cons_ok _ _ _ _ hst, hflds]
  refine ⟨rfl, fun f => ?_⟩
  rw [write_key_and_of_full _ f fs.length (by rw [Nat.zero_add]) hlt]

/-- Witness for C4: one-field row, second field write fails with (1, 2). -/
theorem overfull_write_fails_at_call_witness :
    (run new (Op.nextRow 1 :: [FieldWrite.nilF [0x61]].map Op.field)).1 =
      Except.ok () ∧
    (write_key_and
      (run new (Op.nextRow 1 :: [FieldWrite.nilF [0x61]].map Op.field)).2
      (FieldWrite.nilF [0x62])).1 =
      Except.error (TableImportChunkError.UnmatchElementNums ⟨some (1, 2)⟩) :=
  ⟨(overfull_write_fails_at_call new [FieldWrite.nilF [0x61]] 1 rfl
      (by norm_num) (check_elm_number_none new rfl)).1,
   (overfull_write_fails_at_call new [FieldWrite.nilF [0x61]] 1 rfl
      (by norm_num) (check_elm_number_none new rfl)).2 (FieldWrite.nilF [0x62])⟩

/-- C4 counterexample: at `n = 2^32 - 1` (a legal u32 row arity), after `n`
successful field writes the (n+1)-th field write does NOT fail with an arity
error: the 32-bit written counter wraps to 0 and the call succeeds. -/
theorem overfull_write_wraps_at_u32_max :
    (run (next_row new (2 ^ 32 - 1)).2
      (List.replicate (2 ^ 32 - 1) (Op.field (FieldWrite.nilF [])))).1 =
      Except.ok () ∧
    (write_key_and
      (run (next_row new (2 ^ 32 - 1)).2
        (List.replicate (2 ^ 32 - 1) (Op.field (FieldWrite.nilF [])))).2
      (FieldWrite.nilF [])).1 = Except.ok () := by
  have hnr : next_row new (2 ^ 32 - 1) =
      (Except.ok (),
       ⟨some (2 ^ 32 - 1, 0), new.sink ++ write_map_len (2 ^ 32 - 1)⟩) :=
    next_row_of_check_ok new (2 ^ 32 - 1) (check_elm_number_none new rfl)
  have hrep : List.replicate (2 ^ 32 - 1) (Op.field (FieldWrite.nilF [])) =
      (List.replicate (2 ^ 32 - 1) (FieldWrite.nilF [])).map Op.field := by
    rw [List.map_replicate]
  have hflds := run_fields (List.replicate (2 ^ 32 - 1) (FieldWrite.nilF []))
    ⟨some (2 ^ 32 - 1, 0), new.sink ++ write_map_len (2 ^ 32 - 1)⟩
    (2 ^ 32 - 1) 0 rfl (by rw [List.length_replicate, Nat.zero_add])
    (by norm_num)
  rw [hnr, hrep, hflds]
  refine ⟨rfl, ?_⟩
  rw [write_key_and_of_wrap _ (FieldWrite.nilF [])
    (by rw [List.length_replicate, Nat.zero_add])]

/-- C5: any field write on a freshly created writer, before any `next_row`,
fails with the "not started" arity error that carries no pair. -/
theorem write_before_next_row_not_started (f : FieldWrite) :
    (write_key_and new f).1 =
      Except.error (TableImportChunkError.UnmatchElementNums ⟨none⟩) := by
  rw [write_key_and_of_none new f rfl]

/-- C6: the cursor invariant "written ≤ declared whenever the cursor is
present" holds after `new()` and is preserved by every `next_row` and every
`write_key_and_<T>`, whether the call succeeds or fails (`close` consumes the
writer and never changes the cursor). -/
theorem cursor_invariant_preserved :
    cursorInv new ∧
    (∀ (c : TableImportWritableChunk) (len : Nat),
      cursorInv c → cursorInv (next_row c len).2) ∧
    (∀ (c : TableImportWritableChunk) (f : FieldWrite),
      cursorInv c → cursorInv (write_key_and c f).2) := by
  refine ⟨?_, ?_, ?_⟩
  · intro n w h
    simp [new] at h
  · intro c len hc n w h
    match hck : check_elm_number c with
    | Except.ok u =>
        cases u
        rw [next_row_of_check_ok c len hck] at h
        simp only [Option.some.injEq, Prod.mk.injEq] at h
        omega
    | Except.error e =>
        rw [next_row_of_check_err c len e hck] at h
        exact hc n w h
  · intro c f hc
    rw [write_key_and_eq, after_incr_snd]
    refine incr_preserves_inv _ ?_
    intro n w h
    exact hc n w h

/-- Witness for C6: the invariant holds on the state reached by `new()`, one
`next_row(2)` and one field write. -/
theorem cursor_invariant_preserved_witness :
    cursorInv (write_key_and (next_row new 2).2 (FieldWrite.nilF [0x61])).2 :=
  cursor_invariant_preserved.2.2 _ _
    (cursor_invariant_preserved.2.1 new 2 cursor_invariant_preserved.1)

/-- C7 counterexample: a field write that fails its arity check does NOT
leave the writer in its previous state: the key and value bytes were already
appended to the sink (here on a zero-arity row). -/
theorem failed_write_mutates_sink :
    (write_key_and (next_row new 0).2 (FieldWrite.nilF [0x61])).1 =
      Except.error (TableImportChunkError.UnmatchElementNums ⟨some (0, 1)⟩) ∧
    (write_key_and (next_row new 0).2 (FieldWrite.nilF [0x61])).2.sink ≠
      (next_row new 0).2.sink :=
  ⟨by rfl, by decide⟩

/-- C7 (amended): an arity failure never advances the cursor, and a failing
`next_row` leaves the writer completely unchanged; a failing
`write_key_and_<T>` call, however, has already appended its key and value
bytes to the sink before the check, so only its cursor is unchanged. -/
theorem arity_failure_state_characterization :
    (∀ (c : TableImportWritableChunk) (m : Nat) (e : TableImportChunkError),
      (next_row c m).1 = Except.error e → (next_row c m).2 = c) ∧
    (∀ (c : TableImportWritableChunk) (f : FieldWrite)
      (e : TableImportChunkError),
      (write_key_and c f).1 = Except.error e →
        (write_key_and c f).2.elms_in_row = c.elms_in_row ∧
        (write_key_and c f).2.sink = c.sink ++ fieldBytes f) := by
  constructor
  · intro c m e he
    match hck : check_elm_number c with
    | Except.ok u =>
        cases u
        rw [next_row_of_check_ok c m hck] at he
        exact absurd he (by simp)
    | Except.error e1 =>
        rw [next_row_of_check_err c m e1 hck]
  · intro c f e he
    rw [write_key_and_eq, after_incr_snd]
    rw [write_key_and_eq] at he
    rcases h : c.elms_in_row with _ | ⟨ca, ad⟩
    · rw [incr_of_none ⟨none, c.sink ++ fieldBytes f⟩ rfl]
      exact ⟨rfl, rfl⟩
    · simp only [incr_elms_in_row]
      by_cases hlt : ca < (ad + 1) % 2 ^ 32
      · rw [if_pos hlt]
        exact ⟨rfl, rfl⟩
      · exfalso
        rw [h] at he
        have hok : (incr_elms_in_row
            (⟨some (ca, ad), c.sink ++ fieldBytes f⟩ :
              TableImportWritableChunk)).1 = Except.ok () := by
          simp only [incr_elms_in_row]
          rw [if_neg hlt]
        rw [after_incr_fst_ok _ hok] at he
        exact absurd he (by simp)

/-- Witness for C7 (amended): the not-started failure on a fresh writer keeps
the cursor absent and appends exactly the key/value bytes. -/
theorem arity_failure_state_characterization_witness :
    (write_key_and new (FieldWrite.nilF [0x61])).2.elms_in_row =
      new.elms_in_row ∧
    (write_key_and new (FieldWrite.nilF [0x61])).2.sink =
      new.sink ++ fieldBytes (FieldWrite.nilF [0x61]) :=
  arity_failure_state_characterization.2 new (FieldWrite.nilF [0x61])
    (TableImportChunkError.UnmatchElementNums ⟨none⟩) (by rfl)

/-- C8: `write_key_and_sint_eff` is functionally identical to
`write_key_and_sint` on every writer state, key and value: same result, same
cursor, same sink bytes. -/
theorem sint_eff_equals_sint (c : TableImportWritableChunk)
    (key : List Nat) (val : Int) :
    write_key_and_sint_eff c key val = write_key_and_sint c key val := rfl

/-- C9: on an under-filled row, `next_row` returns the arity error before
writing anything: the returned state is exactly the previous writer — no map
header reaches the sink and the cursor is unchanged. -/
theorem next_row_atomic_on_underfilled (c : TableImportWritableChunk)
    (n w m : Nat) (h : c.elms_in_row = some (n, w)) (hw : w < n) :
    next_row c m =
      (Except.error (TableImportChunkError.UnmatchElementNums ⟨some (n, w)⟩),
       c) :=
  next_row_of_check_err c m _ (check_elm_number_ne c n w h (by omega))

/-- Witness for C9 at the concrete under-filled row (1, 0). -/
theorem next_row_atomic_on_underfilled_witness :
    next_row (next_row new 1).2 3 =
      (Except.error (TableImportChunkError.UnmatchElementNums ⟨some (1, 0)⟩),
       (next_row new 1).2) :=
  next_row_atomic_on_underfilled (next_row new 1).2 1 0 3 (by decide)
    (by decide)

/-- C10: when a field write fails because the row already holds its declared
`n` fields, its key and value bytes have nevertheless been appended to the
sink while the cursor still reads (n, n); an immediately following `next_row`
or `close` therefore passes its arity check, and the emitted stream keeps the
stray pair. -/
theorem overfull_write_leaves_stray_bytes (c : TableImportWritableChunk)
    (f : FieldWrite) (n : Nat) (h : c.elms_in_row = some (n, n))
    (e : TableImportChunkError)
    (hf : (write_key_and c f).1 = Except.error e) :
    (write_key_and c f).2.sink = c.sink ++ fieldBytes f ∧
    (write_key_and c f).2.elms_in_row = some (n, n) ∧
    (∀ m : Nat, (next_row (write_key_and c f).2 m).1 = Except.ok ()) ∧
    close (write_key_and c f).2 =
      Except.ok { content := c.sink ++ fieldBytes f } := by
  have hn : n + 1 < 2 ^ 32 := by
    by_contra hcon
    have hok := incr_of_no_room_wrap
      { c with sink := c.sink ++ fieldBytes f } n h hcon
    rw [write_key_and_eq, after_incr_fst_ok _ hok] at hf
    exact absurd hf (by simp)
  rw [write_key_and_of_full c f n h hn]
  have hck : check_elm_number
      (⟨some (n, n), c.sink ++ fieldBytes f⟩ : TableImportWritableChunk) =
      Except.ok () := check_elm_number_exact _ n rfl
  refine ⟨rfl, rfl, fun m => ?_, ?_⟩
  · rw [next_row_of_check_ok _ m hck]
  · simp [close, hck]

/-- Witness for C10 on a zero-arity row: the failed write leaves the stray
nil pair in the stream and `next_row` and `close` still succeed. -/
theorem overfull_write_leaves_stray_bytes_witness :
    (next_row
      (write_key_and (next_row new 0).2 (FieldWrite.nilF [0x61])).2 3).1 =
      Except.ok () ∧
    close (write_key_and (next_row new 0).2 (FieldWrite.nilF [0x61])).2 =
      Except.ok { content :=
        (next_row new 0).2.sink ++ fieldBytes (FieldWrite.nilF [0x61]) } :=
  ⟨(overfull_write_leaves_stray_bytes (next_row new 0).2
      (FieldWrite.nilF [0x61]) 0 (by decide)
      (TableImportChunkError.UnmatchElementNums ⟨some (0, 1)⟩)
      (by rfl)).2.2.1 3,
   (overfull_write_leaves_stray_bytes (next_row new 0).2
      (FieldWrite.nilF [0x61]) 0 (by decide)
      (TableImportChunkError.UnmatchElementNums ⟨some (0, 1)⟩)
      (by rfl)).2.2.2⟩

/-- Witness for C5 at a concrete field write. -/
theorem write_before_next_row_not_started_witness :
    (write_key_and new (FieldWrite.boolF [0x61] true)).1 =
      Except.error (TableImportChunkError.UnmatchElementNums ⟨none⟩) :=
  write_before_next_row_not_started (FieldWrite.boolF [0x61] true)

/-- Witness for C8 at a concrete state and value. -/
theorem sint_eff_equals_sint_witness :
    write_key_and_sint_eff (next_row new 1).2 [0x61] (-7) =
      write_key_and_sint (next_row new 1).2 [0x61] (-7) :=
  sint_eff_equals_sint (next_row new 1).2 [0x61] (-7)
